import Mathlib

/-!
Verification of the Mean Teacher training driver (`mean_teacher.py`).

The file shallowly embeds the numeric training-step formulas of
`MeanTeacher.model` and the dataset-catalog logic of `get_dataset`,
and proves the specified properties about them.  Scalars that the
program manipulates exactly (parameter values, warmup schedule,
weight-decay coefficients) are embedded as rationals; the softmax
losses, which use the exponential function, are embedded over the
reals.
-/

namespace RealMix

/-! ### Parameter store and per-step updates (`MeanTeacher.model`)

A model variable is a named scalar with its raw (student) value and its
shadow (exponential-moving-average, teacher) value.  The training step
built at lines 67-73 of `mean_teacher.py` runs, after the Adam update:
the EMA update `ema.apply` over all model variables, and the decoupled
weight decay `v := v * (1 - wd)` over the variables whose name contains
`kernel` (with `wd` already multiplied by `lr` at line 45). -/
structure Param where
  name : String
  raw : ℚ
  shadow : ℚ
  deriving DecidableEq

/-- `leadMatch pat s` : `pat` matches the beginning of `s`. -/
def leadMatch : List Char → List Char → Bool
  | [], _ => true
  | _ :: _, [] => false
  | p :: ps, c :: cs => p == c && leadMatch ps cs

/-- `hasSub pat s` : `pat` occurs contiguously somewhere in `s`
(Python's `pat in s` on strings). -/
def hasSub (pat : List Char) : List Char → Bool
  | [] => leadMatch pat []
  | c :: cs => leadMatch pat (c :: cs) || hasSub pat cs

/-- Python `'kernel' in v.name` (line 68 of `mean_teacher.py`). -/
def isKernelName (s : String) : Bool := hasSub ("kernel".toList) s.toList

/-- TensorFlow's `ExponentialMovingAverage` update of one shadow value:
`shadow -= (1 - decay) * (shadow - value)` (the framework's
`assign_moving_average` formula; `decay` is used as given since no
`num_updates` is passed at line 53). -/
def emaUpdate (d s v : ℚ) : ℚ := s - (1 - d) * (s - v)

/-- The optimizer update (line 70): an external Adam step, abstracted
as an arbitrary per-variable map on the raw values. -/
def optStep (opt : String → ℚ → ℚ) (ps : List Param) : List Param :=
  ps.map fun p => { p with raw := opt p.name p.raw }

/-- `ema_op = ema.apply(utils.model_vars())` (line 54), executed among
the post ops after the optimizer step (lines 67, 72-73). -/
def emaStep (d : ℚ) (ps : List Param) : List Param :=
  ps.map fun p => { p with shadow := emaUpdate d p.shadow p.raw }

/-- `tf.assign(v, v * (1 - wd))` for every `kernel` variable (line 68);
`wdlr` is the product `wd * lr` formed at line 45. -/
def wdStep (wdlr : ℚ) (ps : List Param) : List Param :=
  ps.map fun p =>
    if isKernelName p.name then { p with raw := p.raw * (1 - wdlr) } else p

/-- One full training step: optimizer update, then the grouped post ops
(EMA update of the shadow set, decoupled weight decay), in the order the
post ops are collected at lines 67-68. -/
def trainStep (opt : String → ℚ → ℚ) (d wdlr : ℚ) (ps : List Param) : List Param :=
  wdStep wdlr (emaStep d (optStep opt ps))

/-- A training run: a sequence of steps, each with its own (state
dependent, hence arbitrary) optimizer update. -/
def runSteps (opts : List (String → ℚ → ℚ)) (d wdlr : ℚ) (ps : List Param) : List Param :=
  opts.foldl (fun st opt => trainStep opt d wdlr st) ps

/-- A concrete optimizer update used to instantiate the step theorems. -/
def optPlusOne : String → ℚ → ℚ := fun _ v => v + 1

/-- A tiny concrete parameter store used to instantiate the step
theorems: one convolution kernel and one bias. -/
def paramsC : List Param :=
  [{ name := "conv2d/kernel", raw := 3, shadow := 7 },
   { name := "conv2d/bias", raw := 5, shadow := 11 }]

/-! ### Warmup schedule (line 46 of `mean_teacher.py`) -/
/-- `tf.clip_by_value(t, lo, hi)`. -/
def clipByValue (x lo hi : ℚ) : ℚ := min (max x lo) hi

/-- The warmup coefficient
`clip_by_value(step / (warmup_pos * total), 0, 1)`, with `total` the
total number of training samples. -/
def warmupCoeff (step pos total : ℚ) : ℚ := clipByValue (step / (pos * total)) 0 1

/-- Line 46 as written: the total is `FLAGS.train_kimg << 10`. -/
def modelWarmup (step pos : ℚ) (train_kimg : ℕ) : ℚ :=
  warmupCoeff step pos ((train_kimg <<< 10 : ℕ) : ℚ)

/-! ### Unlabeled-pair plumbing (lines 51-58 of `mean_teacher.py`)

The placeholder `y_in` has shape `[n, 2, h, w, c]`: `n` unlabeled
samples, each carried as two augmented views.  We model it on the first
two axes as a list of rows of images, each row of length 2.  Line 51
transposes the first two axes and flattens them; line 52 splits the
result into two equal halves; lines 56-58 build the teacher branch
(first half, shadow parameters via `ema_getter`, `tf.stop_gradient`)
and the student branch (second half, live parameters). -/
/-- `consColumn row cols` prepends the elements of `row` to the
corresponding lists of `cols`, starting fresh singleton lists when
`cols` runs out. -/
def consColumn {α : Type} : List α → List (List α) → List (List α)
  | [], ls => ls
  | a :: as, [] => [a] :: consColumn as []
  | a :: as, l :: ls => (a :: l) :: consColumn as ls

/-- `tf.transpose(y_in, [1, 0, 2, 3, 4])` restricted to the two leading
axes: the transpose of a list of rows. -/
def transposeViews {α : Type} : List (List α) → List (List α)
  | [] => []
  | row :: rest => consColumn row (transposeViews rest)

/-- `tf.reshape(tf.transpose(y_in, ...), [-1] + hwc)` (line 51): the
transposed leading axes are flattened into one batch axis. -/
def reshapeViews {α : Type} (y : List (List α)) : List α := (transposeViews y).flatten

/-- `tf.split(y, 2)` (line 52): two equal halves along the batch axis. -/
def splitHalf {α : Type} (l : List α) : List α × List α :=
  (l.take (l.length / 2), l.drop (l.length / 2))

/-- Which parameter set a classifier call reads: the live (student)
variables, or the shadow (EMA) variables through `ema_getter`. -/
inductive ParamChoice
  | live
  | emaShadow
  deriving DecidableEq

/-- One classifier branch of the graph: the inputs it is applied to,
the parameter set it reads, and whether gradients flow from its output
back into those parameters (`tf.stop_gradient` blocks them). -/
structure BranchSpec (α : Type) where
  inputs : List α
  params : ParamChoice
  gradFlows : Bool
  deriving DecidableEq

/-- `logits_teacher = tf.stop_gradient(classifier(y_1, getter=ema_getter))`
(lines 56-57): the first half, read through the shadow parameters, with
gradient flow blocked. -/
def teacherBranch {α : Type} (y : List (List α)) : BranchSpec α :=
  { inputs := (splitHalf (reshapeViews y)).1
    params := ParamChoice.emaShadow
    gradFlows := false }

/-- `logits_student = classifier(y_2, training=True)` (line 58): the
second half, read through the live parameters. -/
def studentBranch {α : Type} (y : List (List α)) : BranchSpec α :=
  { inputs := (splitHalf (reshapeViews y)).2
    params := ParamChoice.live
    gradFlows := true }

/-- The `[n, 2, ...]` input tensor holding an unlabeled batch of paired
views. -/
def pairBatch {α : Type} (pairs : List (α × α)) : List (List α) :=
  pairs.map fun p => [p.1, p.2]

/-! ### Dataset selection (`get_dataset`, lines 87-109) -/
/-- A dataset object, as exposed by the catalog interface.
Modelled from the spec: the `DataSet` class lives in the external
`libml` library; per the spec it exposes image dimensions, channel
count, class count, and name. -/
structure DataSet where
  name : String
  nclass : ℕ
  height : ℕ
  width : ℕ
  colors : ℕ
  deriving DecidableEq

/-- An augmentation choice, the values of `augment_dict` (line 100).
Modelled from the spec: the augmentation functions live in
`libml.data`; only their identity matters to `get_dataset`. -/
inductive Augmentation
  | cifar10
  | cutout
  | svhn
  | stl10
  | color
  | stacked (a : Augmentation)
  deriving DecidableEq

/-- `stack_augment`.  Modelled from the spec: "a 'stacked' variant
producing two differently-augmented copies per unlabeled sample"
(`libml.data_pair`). -/
def stack_augment (a : Augmentation) : Augmentation := Augmentation.stacked a

/-- Association-list lookup: Python `dict` access at a string key. -/
def alookup {β : Type} (k : String) : List (String × β) → Option β
  | [] => none
  | (q, v) :: rest => if k = q then some v else alookup k rest

/-- The pre-configured catalog.  Modelled from the spec: `DATASETS` is
defined in `libml.data_pair`; per the code comment at lines 90-91,
CIFAR10, CIFAR100, STL10 and SVHN are the pre-configured datasets, and
per the spec `"cifar10"` yields a dataset with `nclass = 10`. -/
def DATASETS : List (String × (Unit → DataSet)) :=
  [("cifar10", fun _ =>
      { name := "cifar10", nclass := 10, height := 32, width := 32, colors := 3 }),
   ("cifar100", fun _ =>
      { name := "cifar100", nclass := 100, height := 32, width := 32, colors := 3 }),
   ("stl10", fun _ =>
      { name := "stl10", nclass := 10, height := 96, width := 96, colors := 3 }),
   ("svhn", fun _ =>
      { name := "svhn", nclass := 10, height := 32, width := 32, colors := 3 })]

/-- `augment_dict` (line 100 of `mean_teacher.py`). -/
def augment_dict : List (String × Augmentation) :=
  [("cifar10", Augmentation.cifar10), ("cutout", Augmentation.cutout),
   ("svhn", Augmentation.svhn), ("stl10", Augmentation.stl10),
   ("color", Augmentation.color)]

/-- `FLAGS.dataset.split(".")[0]` (line 103): the part of the name
before the first dot. -/
def baseOf (s : String) : String := String.mk (s.toList.takeWhile fun c => c ≠ '.')

/-- `DataSet.creator(name, seed, label, valid, augment, ...)`.
Modelled from the spec: the factory lives in `libml.data`; it yields a
catalog entry whose key is derived from the base name, the seed and the
label/validation sizes — the spec's default dataset name
`cifar10.3@250-5000` exhibits the key shape `name.seed@label-valid`. -/
def creator (base : String) (seed label valid : ℕ) (_augs : List Augmentation)
    (nclass height width : ℕ) : String × (Unit → DataSet) :=
  (base ++ "." ++ toString seed ++ "@" ++ toString label ++ "-" ++ toString valid,
   fun _ =>
     { name := base ++ "." ++ toString seed ++ "@" ++ toString label ++ "-" ++ toString valid
       nclass := nclass
       height := height
       width := width
       colors := 3 })

/-- The flag values `get_dataset` reads (lines 88-107), with the
`label_size` / `valid_size` string lists already converted by `int`
(lines 97-98). -/
structure Flags where
  dataset : String
  custom_dataset : Bool
  label_size : List ℕ
  valid_size : List ℕ
  augment : String
  nclass : ℕ
  img_size : ℕ
  deriving DecidableEq

/-- The catalog entries built on the custom path (lines 103-106): one
per element of `itertools.product(range(2), label_size, valid_size)`,
with the base name `FLAGS.dataset.split(".")[0]` and the augmentation
pair `[augmentation, stack_augment(augmentation)]`. -/
def customEntries (fl : Flags) (aug : Augmentation) : List (String × (Unit → DataSet)) :=
  (List.range 2).flatMap fun seed =>
    fl.label_size.flatMap fun label =>
      fl.valid_size.map fun valid =>
        creator (baseOf fl.dataset) seed label valid
          [aug, stack_augment aug] fl.nclass fl.img_size fl.img_size

/-- How a `get_dataset` call ends: a dataset, a failed `assert` with
its message, or an uncaught `KeyError` at a dict lookup. -/
inductive DatasetResult
  | ok (d : DataSet)
  | assertionError (msg : String)
  | keyError (key : String)
  deriving DecidableEq

/-- `get_dataset()` (lines 87-109), over an explicit catalog state:
the entry assertion, then the catalog lookup, then on the custom path
the `augment_dict` lookup, the `DATASETS.update(...)` (new entries
shadow old ones), and the final `DATASETS[FLAGS.dataset]` lookup. -/
def get_dataset (fl : Flags) (catalog : List (String × (Unit → DataSet))) : DatasetResult :=
  if (alookup fl.dataset catalog).isSome = true ∨ fl.custom_dataset = true then
    match alookup fl.dataset catalog with
    | some factory => DatasetResult.ok (factory ())
    | none =>
        match alookup fl.augment augment_dict with
        | none => DatasetResult.keyError fl.augment
        | some aug =>
            match alookup fl.dataset (customEntries fl aug ++ catalog) with
            | some factory => DatasetResult.ok (factory ())
            | none => DatasetResult.keyError fl.dataset
  else
    DatasetResult.assertionError
      ("Please enter a valid dataset name or use the --custom_dataset flag.")

/-- The default flag values of the script (lines 146-155): dataset
`cifar10.3@250-5000`, custom path enabled. -/
def defaultFlags : Flags :=
  { dataset := "cifar10.3@250-5000"
    custom_dataset := true
    label_size := [250, 1000, 2000, 4000]
    valid_size := [1, 500]
    augment := "cifar10"
    nclass := 10
    img_size := 32 }

/-- Flags requesting the pre-configured `cifar10` without the custom
flag. -/
def cifarFlags : Flags :=
  { dataset := "cifar10"
    custom_dataset := false
    label_size := [250]
    valid_size := [1]
    augment := "cifar10"
    nclass := 10
    img_size := 32 }

/-- Flags requesting an unknown dataset without the custom flag. -/
def bogusFlags : Flags :=
  { dataset := "mnist"
    custom_dataset := false
    label_size := [250]
    valid_size := [1]
    augment := "cifar10"
    nclass := 10
    img_size := 32 }

/-- Flags with `label_size = [250]`, `valid_size = [1]` for the C8
catalog-entry count. -/
def c8Flags : Flags :=
  { dataset := "custom.3@250-1"
    custom_dataset := true
    label_size := [250]
    valid_size := [1]
    augment := "cifar10"
    nclass := 4
    img_size := 32 }

/-- Flags on the custom path with an augmentation name absent from
`augment_dict`. -/
def flipFlags : Flags :=
  { dataset := "foo.0@250-1"
    custom_dataset := true
    label_size := [250]
    valid_size := [1]
    augment := "flip"
    nclass := 10
    img_size := 32 }

/-! ### Softmax losses (lines 44, 59-63, 70 of `mean_teacher.py`)

The loss formulas use the exponential function, so this part of the
embedding lives over the reals. -/
/-- `tf.reduce_mean` of a vector: its sum divided by its length. -/
noncomputable def tmean (l : List ℝ) : ℝ := l.sum / l.length

/-- `tf.nn.softmax` on one row of logits. -/
noncomputable def softmax (l : List ℝ) : List ℝ := l.map fun x => Real.exp x / (l.map Real.exp).sum

/-- `tf.one_hot(label, nclass)` for one integer label (line 44). -/
noncomputable def oneHot (n lab : ℕ) : List ℝ := (List.range n).map fun i => if i = lab then 1 else 0

/-- `tf.nn.softmax_cross_entropy_with_logits_v2` on one row (line 62):
`-Σ labels * log softmax(logits)`. -/
noncomputable def softmaxXent (labels logits : List ℝ) : ℝ :=
  -(List.zipWith (fun p q => p * Real.log q) labels (softmax logits)).sum

/-- Lines 62-63: the supervised loss, the batch mean of the softmax
cross-entropy of the student logits on the labeled batch against the
one-hot labels. -/
noncomputable def supervisedLoss (labs : List ℕ) (logits_x : List (List ℝ)) (n : ℕ) : ℝ :=
  tmean (List.zipWith (fun lab lg => softmaxXent (oneHot n lab) lg) labs logits_x)

/-- Lines 59-60: `loss_mt`, the squared difference of the teacher and
student softmax outputs, averaged over the class axis (`-1`) and then
over the batch. -/
noncomputable def consistencyLoss (t s : List (List ℝ)) : ℝ :=
  tmean (List.zipWith
    (fun a b => tmean (List.zipWith (fun p q => (p - q) ^ 2) (softmax a) (softmax b))) t s)

/-- Line 70: the scalar handed to `AdamOptimizer(lr).minimize`,
`loss + loss_mt * warmup * consistency_weight`. -/
noncomputable def minimizedLoss (labs : List ℕ) (logits_x : List (List ℝ)) (n : ℕ)
    (t s : List (List ℝ)) (warmup cw : ℝ) : ℝ :=
  supervisedLoss labs logits_x n + consistencyLoss t s * warmup * cw

/-- The per-row consistency loss: the class-axis mean of the squared
softmax differences (line 59). -/
noncomputable def rowLoss (a b : List ℝ) : ℝ :=
  tmean (List.zipWith (fun p q => (p - q) ^ 2) (softmax a) (softmax b))

/-! ### Theorems -/

@[simp] theorem optStep_length (opt : String → ℚ → ℚ) (ps : List Param) :
    (optStep opt ps).length = ps.length := by
  simp [optStep]

@[simp] theorem emaStep_length (d : ℚ) (ps : List Param) :
    (emaStep d ps).length = ps.length := by
  simp [emaStep]

@[simp] theorem wdStep_length (wdlr : ℚ) (ps : List Param) :
    (wdStep wdlr ps).length = ps.length := by
  simp [wdStep]

@[simp] theorem trainStep_length (opt : String → ℚ → ℚ) (d wdlr : ℚ) (ps : List Param) :
    (trainStep opt d wdlr ps).length = ps.length := by
  simp [trainStep]

/-- C1: after the optimizer step of any training step (taken after any
sequence of previous steps), the shadow value of every parameter is
updated by the exponential-moving-average rule
`shadow = d * shadow_prev + (1 - d) * raw_current`, where `raw_current`
is the raw (student) value right after that step's optimizer update. -/
theorem shadow_ema_rule (opts : List (String → ℚ → ℚ)) (opt : String → ℚ → ℚ)
    (d wdlr : ℚ) (ps₀ : List Param) (i : ℕ)
    (h1 : i < (runSteps opts d wdlr ps₀).length)
    (h2 : i < (trainStep opt d wdlr (runSteps opts d wdlr ps₀)).length)
    (h3 : i < (optStep opt (runSteps opts d wdlr ps₀)).length) :
    ((trainStep opt d wdlr (runSteps opts d wdlr ps₀)).get ⟨i, h2⟩).shadow
      = d * ((runSteps opts d wdlr ps₀).get ⟨i, h1⟩).shadow
        + (1 - d) * ((optStep opt (runSteps opts d wdlr ps₀)).get ⟨i, h3⟩).raw := by
  generalize (runSteps opts d wdlr ps₀) = ps at h1 h2 h3 ⊢
  simp only [trainStep, wdStep, emaStep, optStep, emaUpdate, List.get_eq_getElem,
    List.getElem_map, apply_ite Param.shadow]
  split <;> ring

/-- Witness for C1 at a concrete two-parameter store after one previous
step. -/
theorem shadow_ema_rule_witness :
    0 < (runSteps [optPlusOne] (1 / 2) (1 / 8) paramsC).length ∧
    ((trainStep optPlusOne (1 / 2) (1 / 8) (runSteps [optPlusOne] (1 / 2) (1 / 8) paramsC)).get
        ⟨0, by decide⟩).shadow
      = (1 / 2) * ((runSteps [optPlusOne] (1 / 2) (1 / 8) paramsC).get ⟨0, by decide⟩).shadow
        + (1 - 1 / 2) *
          ((optStep optPlusOne (runSteps [optPlusOne] (1 / 2) (1 / 8) paramsC)).get
            ⟨0, by decide⟩).raw :=
  ⟨by decide,
   shadow_ema_rule [optPlusOne] optPlusOne (1 / 2) (1 / 8) paramsC 0
     (by decide) (by decide) (by decide)⟩

/-- C4: the post-optimizer weight-decay adjustment multiplies every
parameter whose name contains `kernel` by `(1 - wd * lr)` and leaves
every other parameter, and every shadow value and name, unchanged. -/
theorem wd_kernel_scaling (wd lr : ℚ) (ps : List Param) (i : ℕ)
    (h1 : i < ps.length) (h2 : i < (wdStep (wd * lr) ps).length) :
    ((wdStep (wd * lr) ps).get ⟨i, h2⟩).raw
      = (if isKernelName ((ps.get ⟨i, h1⟩).name)
          then (ps.get ⟨i, h1⟩).raw * (1 - wd * lr)
          else (ps.get ⟨i, h1⟩).raw)
    ∧ ((wdStep (wd * lr) ps).get ⟨i, h2⟩).name = (ps.get ⟨i, h1⟩).name
    ∧ ((wdStep (wd * lr) ps).get ⟨i, h2⟩).shadow = (ps.get ⟨i, h1⟩).shadow := by
  refine ⟨?_, ?_, ?_⟩ <;>
    simp only [wdStep, List.get_eq_getElem, List.getElem_map, apply_ite Param.raw,
      apply_ite Param.name, apply_ite Param.shadow] <;>
    split <;> rfl

/-- Witness for C4 at the concrete store: the kernel entry is scaled and
the bias entry is untouched. -/
theorem wd_kernel_scaling_witness :
    0 < paramsC.length ∧ 1 < paramsC.length ∧
    (((wdStep ((1 / 5 : ℚ) * (1 / 2)) paramsC).get ⟨0, by decide⟩).raw
        = (if isKernelName ((paramsC.get ⟨0, by decide⟩).name)
            then (paramsC.get ⟨0, by decide⟩).raw * (1 - (1 / 5 : ℚ) * (1 / 2))
            else (paramsC.get ⟨0, by decide⟩).raw)
      ∧ ((wdStep ((1 / 5 : ℚ) * (1 / 2)) paramsC).get ⟨0, by decide⟩).name
          = (paramsC.get ⟨0, by decide⟩).name
      ∧ ((wdStep ((1 / 5 : ℚ) * (1 / 2)) paramsC).get ⟨0, by decide⟩).shadow
          = (paramsC.get ⟨0, by decide⟩).shadow)
    ∧ (((wdStep ((1 / 5 : ℚ) * (1 / 2)) paramsC).get ⟨1, by decide⟩).raw
        = (if isKernelName ((paramsC.get ⟨1, by decide⟩).name)
            then (paramsC.get ⟨1, by decide⟩).raw * (1 - (1 / 5 : ℚ) * (1 / 2))
            else (paramsC.get ⟨1, by decide⟩).raw)
      ∧ ((wdStep ((1 / 5 : ℚ) * (1 / 2)) paramsC).get ⟨1, by decide⟩).name
          = (paramsC.get ⟨1, by decide⟩).name
      ∧ ((wdStep ((1 / 5 : ℚ) * (1 / 2)) paramsC).get ⟨1, by decide⟩).shadow
          = (paramsC.get ⟨1, by decide⟩).shadow) :=
  ⟨by decide, by decide,
   wd_kernel_scaling (1 / 5) (1 / 2) paramsC 0 (by decide) (by decide),
   wd_kernel_scaling (1 / 5) (1 / 2) paramsC 1 (by decide) (by decide)⟩

/-- C2: for positive warmup fraction `f` and total `T`, the warmup
coefficient is `clamp(s / (f * T), 0, 1)`: it is `0` at `s = 0`, exactly
`1` for every `s ≥ f * T`, linear (`= s / (f * T)`) in between; the
form in the code uses `T = train_kimg <<< 10`; and `f = 2/5`, `T = 1000`
gives coefficient `1/2` at `s = 200`. -/
theorem warmup_clamp_spec (f T : ℚ) (hf : 0 < f) (hT : 0 < T) :
    warmupCoeff 0 f T = 0
    ∧ (∀ s : ℚ, f * T ≤ s → warmupCoeff s f T = 1)
    ∧ (∀ s : ℚ, 0 ≤ s → s ≤ f * T → warmupCoeff s f T = s / (f * T))
    ∧ (∀ (s : ℚ) (kimg : ℕ), modelWarmup s f kimg = warmupCoeff s f ((kimg : ℚ) * 1024))
    ∧ warmupCoeff 200 (2 / 5) 1000 = 1 / 2 := by
  have hfT : 0 < f * T := mul_pos hf hT
  refine ⟨?_, ?_, ?_, ?_, ?_⟩
  · simp [warmupCoeff, clipByValue]
  · intro s hs
    have h1 : (1 : ℚ) ≤ s / (f * T) := (one_le_div hfT).mpr hs
    have h0 : (0 : ℚ) ≤ s / (f * T) := le_trans zero_le_one h1
    simp [warmupCoeff, clipByValue, max_eq_left h0, min_eq_right h1]
  · intro s hs0 hs1
    have h0 : (0 : ℚ) ≤ s / (f * T) := div_nonneg hs0 (le_of_lt hfT)
    have h1 : s / (f * T) ≤ 1 := (div_le_one hfT).mpr hs1
    simp [warmupCoeff, clipByValue, max_eq_left h0, min_eq_left h1]
  · intro s kimg
    have h : ((kimg <<< 10 : ℕ) : ℚ) = (kimg : ℚ) * 1024 := by
      rw [Nat.shiftLeft_eq]
      push_cast
      norm_num
    simp [modelWarmup, h]
  · norm_num [warmupCoeff, clipByValue]

/-- Witness for C2 at `f = 2/5`, `T = 1000`. -/
theorem warmup_clamp_spec_witness :
    0 < (2 / 5 : ℚ) ∧ 0 < (1000 : ℚ) ∧
    (warmupCoeff 0 (2 / 5) 1000 = 0
      ∧ (∀ s : ℚ, (2 / 5) * 1000 ≤ s → warmupCoeff s (2 / 5) 1000 = 1)
      ∧ (∀ s : ℚ, 0 ≤ s → s ≤ (2 / 5) * 1000 →
          warmupCoeff s (2 / 5) 1000 = s / ((2 / 5) * 1000))
      ∧ (∀ (s : ℚ) (kimg : ℕ),
          modelWarmup s (2 / 5) kimg = warmupCoeff s (2 / 5) ((kimg : ℚ) * 1024))
      ∧ warmupCoeff 200 (2 / 5) 1000 = 1 / 2) :=
  ⟨by norm_num, by norm_num, warmup_clamp_spec (2 / 5) 1000 (by norm_num) (by norm_num)⟩

theorem transposeViews_pairBatch {α : Type} (pairs : List (α × α)) (h : pairs ≠ []) :
    transposeViews (pairBatch pairs) = [pairs.map Prod.fst, pairs.map Prod.snd] := by
  induction pairs with
  | nil => exact absurd rfl h
  | cons p rest ih =>
      cases rest with
      | nil => rfl
      | cons q rest' =>
          have hr := ih (by simp)
          simp only [pairBatch, List.map_cons] at hr ⊢
          rw [transposeViews, hr]
          rfl

theorem reshapeViews_pairBatch {α : Type} (pairs : List (α × α)) :
    reshapeViews (pairBatch pairs) = pairs.map Prod.fst ++ pairs.map Prod.snd := by
  cases pairs with
  | nil => rfl
  | cons p rest =>
      rw [reshapeViews, transposeViews_pairBatch (p :: rest) (by simp)]
      simp

/-- C6: for every unlabeled batch of paired views, the combined tensor
is split along the batch axis into two equal halves — view A (all first
views) and view B (all second views), each of length half the combined
tensor; the teacher branch consumes view A through the shadow
parameters with gradient flow blocked, and the student branch consumes
view B through the live parameters. -/
theorem unlabeled_split_branches {α : Type} (pairs : List (α × α)) :
    (teacherBranch (pairBatch pairs)).inputs = pairs.map Prod.fst
    ∧ (studentBranch (pairBatch pairs)).inputs = pairs.map Prod.snd
    ∧ (teacherBranch (pairBatch pairs)).inputs.length = pairs.length
    ∧ (studentBranch (pairBatch pairs)).inputs.length = pairs.length
    ∧ (reshapeViews (pairBatch pairs)).length = 2 * pairs.length
    ∧ (teacherBranch (pairBatch pairs)).params = ParamChoice.emaShadow
    ∧ (teacherBranch (pairBatch pairs)).gradFlows = false
    ∧ (studentBranch (pairBatch pairs)).params = ParamChoice.live
    ∧ (studentBranch (pairBatch pairs)).gradFlows = true := by
  have hres := reshapeViews_pairBatch pairs
  have hlen : (reshapeViews (pairBatch pairs)).length = 2 * pairs.length := by
    rw [hres]
    simp [two_mul]
  have hhalf : (reshapeViews (pairBatch pairs)).length / 2 = pairs.length := by
    rw [hlen]
    omega
  have htake : (teacherBranch (pairBatch pairs)).inputs = pairs.map Prod.fst := by
    show (splitHalf (reshapeViews (pairBatch pairs))).1 = pairs.map Prod.fst
    rw [splitHalf, hhalf, hres]
    have : pairs.length = (pairs.map Prod.fst).length := (List.length_map _ _).symm
    rw [this, List.take_left]
  have hdrop : (studentBranch (pairBatch pairs)).inputs = pairs.map Prod.snd := by
    show (splitHalf (reshapeViews (pairBatch pairs))).2 = pairs.map Prod.snd
    rw [splitHalf, hhalf, hres]
    have : pairs.length = (pairs.map Prod.fst).length := (List.length_map _ _).symm
    rw [this, List.drop_left]
  refine ⟨htake, hdrop, ?_, ?_, hlen, rfl, rfl, rfl, rfl⟩
  · rw [htake]
    simp
  · rw [hdrop]
    simp

/-- C7: a requested name present in the pre-configured catalog resolves
to the dataset produced by that entry's factory — in particular
`"cifar10"` yields a dataset with `nclass = 10` — while a name absent
from the catalog with the custom-dataset flag unset fails the entry
assertion with its descriptive message. -/
theorem dataset_selection (fl : Flags) :
    (∀ factory, alookup fl.dataset DATASETS = some factory →
      get_dataset fl DATASETS = DatasetResult.ok (factory ()))
    ∧ (fl.dataset = "cifar10" →
        ∃ d, get_dataset fl DATASETS = DatasetResult.ok d ∧ d.nclass = 10)
    ∧ (alookup fl.dataset DATASETS = none → fl.custom_dataset = false →
        get_dataset fl DATASETS
          = DatasetResult.assertionError
              ("Please enter a valid dataset name or use the --custom_dataset flag.")) := by
  refine ⟨?_, ?_, ?_⟩
  · intro factory h
    simp [get_dataset, h]
  · intro h
    have hl : alookup fl.dataset DATASETS
        = some (fun _ =>
            { name := "cifar10", nclass := 10, height := 32, width := 32, colors := 3 }) := by
      rw [h]
      rfl
    refine ⟨{ name := "cifar10", nclass := 10, height := 32, width := 32, colors := 3 },
      ?_, rfl⟩
    simp [get_dataset, hl]
  · intro h1 h2
    simp [get_dataset, h1, h2]

/-- Witness for C7: `cifar10` resolves to a 10-class dataset; `mnist`
without the custom flag hits the assertion error. -/
theorem dataset_selection_witness :
    (cifarFlags.dataset = "cifar10"
      ∧ ∃ d, get_dataset cifarFlags DATASETS = DatasetResult.ok d ∧ d.nclass = 10)
    ∧ (alookup bogusFlags.dataset DATASETS = none
      ∧ bogusFlags.custom_dataset = false
      ∧ get_dataset bogusFlags DATASETS
          = DatasetResult.assertionError
              ("Please enter a valid dataset name or use the --custom_dataset flag.")) :=
  ⟨⟨rfl, (dataset_selection cifarFlags).2.1 rfl⟩,
   ⟨rfl, rfl, (dataset_selection bogusFlags).2.2 rfl rfl⟩⟩

theorem flatMap_length_const {α γ : Type} (l : List α) (F : α → List γ) (L : ℕ)
    (h : ∀ a, (F a).length = L) : (l.flatMap F).length = l.length * L := by
  induction l with
  | nil => simp
  | cons a rest ih =>
      simp only [List.flatMap_cons, List.length_append, List.length_cons, ih, h]
      ring

/-- C8: the custom construction builds one catalog entry per element of
`{0, 1} × label_size × valid_size`; for `label_size = [250]` and
`valid_size = [1]` that is exactly two entries, one per seed in
`{0, 1}`. -/
theorem custom_entries_count (fl : Flags) (aug : Augmentation) :
    (customEntries fl aug).length = 2 * (fl.label_size.length * fl.valid_size.length)
    ∧ (customEntries c8Flags aug).length = 2
    ∧ (customEntries c8Flags aug).map Prod.fst = ["custom.0@250-1", "custom.1@250-1"] := by
  refine ⟨?_, ?_, rfl⟩
  · rw [customEntries, flatMap_length_const _ _ (fl.label_size.length * fl.valid_size.length)]
    · simp
    · intro seed
      rw [flatMap_length_const _ _ fl.valid_size.length]
      intro label
      exact List.length_map _ _
  · rfl

/-- C9: with the custom flag set, the entry assertion passes for every
name, but when the requested name matches no key generated by the
custom construction (and is not pre-configured), `get_dataset` ends in
an uncaught `KeyError` carrying the requested name — not the
descriptive assertion error.  The script's own default name
`cifar10.3@250-5000` (seed 3, validation 5000) does exactly that under
the default flags. -/
theorem custom_lookup_keyerror (fl : Flags) (aug : Augmentation)
    (hcustom : fl.custom_dataset = true)
    (hmiss : alookup fl.dataset DATASETS = none)
    (haug : alookup fl.augment augment_dict = some aug)
    (hkey : alookup fl.dataset (customEntries fl aug ++ DATASETS) = none) :
    get_dataset fl DATASETS = DatasetResult.keyError fl.dataset
    ∧ get_dataset defaultFlags DATASETS = DatasetResult.keyError ("cifar10.3@250-5000") := by
  constructor
  · simp [get_dataset, hcustom, hmiss, haug, hkey]
  · decide

/-- Witness for C9 at the default flags. -/
theorem custom_lookup_keyerror_witness :
    defaultFlags.custom_dataset = true
    ∧ alookup defaultFlags.dataset DATASETS = none
    ∧ alookup defaultFlags.augment augment_dict = some Augmentation.cifar10
    ∧ alookup defaultFlags.dataset
        (customEntries defaultFlags Augmentation.cifar10 ++ DATASETS) = none
    ∧ get_dataset defaultFlags DATASETS
        = DatasetResult.keyError ("cifar10.3@250-5000") :=
  ⟨rfl, rfl, rfl, by decide,
   (custom_lookup_keyerror defaultFlags Augmentation.cifar10 rfl rfl rfl (by decide)).1⟩

/-- C10: on the custom path, an augment flag value outside
`augment_dict`'s keys makes `get_dataset` end in an uncaught `KeyError`
carrying the augment name — no descriptive validation of the augment
name exists. -/
theorem augment_lookup_keyerror (fl : Flags)
    (hcustom : fl.custom_dataset = true)
    (hmiss : alookup fl.dataset DATASETS = none)
    (haug : alookup fl.augment augment_dict = none) :
    get_dataset fl DATASETS = DatasetResult.keyError fl.augment := by
  simp [get_dataset, hcustom, hmiss, haug]

/-- Witness for C10: augment name `flip`. -/
theorem augment_lookup_keyerror_witness :
    flipFlags.custom_dataset = true
    ∧ alookup flipFlags.dataset DATASETS = none
    ∧ alookup flipFlags.augment augment_dict = none
    ∧ get_dataset flipFlags DATASETS = DatasetResult.keyError ("flip") :=
  ⟨rfl, rfl, rfl, augment_lookup_keyerror flipFlags rfl rfl rfl⟩

theorem zip_log_zero_sum (zs xs : List ℝ) (h : ∀ z ∈ zs, z = 0) :
    (List.zipWith (fun p q => p * Real.log q) zs xs).sum = 0 := by
  induction zs generalizing xs with
  | nil => simp
  | cons z zs ih =>
      cases xs with
      | nil => simp
      | cons x xs =>
          have hz : z = 0 := h z (by simp)
          simp [hz, ih xs fun w hw => h w (by simp [hw])]

theorem one_hot_zip_sum (v : List ℝ) (n lab : ℕ) (hv : lab < v.length) (hn : lab < n) :
    (List.zipWith (fun p q => p * Real.log q) (oneHot n lab) v).sum
      = Real.log (v.get ⟨lab, hv⟩) := by
  induction v generalizing n lab with
  | nil => exact absurd hv (by simp)
  | cons x xs ih =>
      obtain ⟨m, rfl⟩ : ∃ m, n = m + 1 := ⟨n - 1, by omega⟩
      rw [oneHot, List.range_succ_eq_map, List.map_cons, List.map_map]
      cases lab with
      | zero =>
          simp only [List.zipWith_cons_cons, List.sum_cons, if_pos rfl, one_mul]
          have hz : (List.zipWith (fun p q => p * Real.log q)
              ((List.range m).map ((fun i => if i = 0 then (1 : ℝ) else 0) ∘ Nat.succ))
              xs).sum = 0 := by
            refine zip_log_zero_sum _ _ ?_
            intro z hz
            obtain ⟨i, _, rfl⟩ := List.mem_map.mp hz
            simp [Function.comp]
          rw [hz]
          simp
      | succ k =>
          have hk : k < xs.length := by simpa using hv
          have hkm : k < m := by omega
          simp only [List.zipWith_cons_cons, List.sum_cons]
          have hhead : (if (0 : ℕ) = k + 1 then (1 : ℝ) else 0) * Real.log x = 0 := by
            simp
          have htail : (List.range m).map ((fun i => if i = k + 1 then (1 : ℝ) else 0) ∘ Nat.succ)
              = oneHot m k := by
            rw [oneHot]
            refine List.map_congr_left ?_
            intro i _
            simp [Function.comp, Nat.succ_inj]
          rw [hhead, htail, ih m k hk hkm]
          simp

/-- C3: the scalar loss minimized by the optimizer equals
`supervised + warmup * consistency_weight * consistency`, where the
supervised part is the batch-mean softmax cross-entropy of the student
logits against the one-hot labels; against a one-hot label that
cross-entropy is the negative log of the softmax probability assigned
to the labeled class. -/
theorem total_loss_formula (labs : List ℕ) (logits_x : List (List ℝ)) (n : ℕ)
    (t s : List (List ℝ)) (warmup cw : ℝ) (lab : ℕ) (lg : List ℝ)
    (h1 : lab < n) (h2 : lab < (softmax lg).length) :
    minimizedLoss labs logits_x n t s warmup cw
      = supervisedLoss labs logits_x n + warmup * cw * consistencyLoss t s
    ∧ softmaxXent (oneHot n lab) lg = -Real.log ((softmax lg).get ⟨lab, h2⟩) := by
  constructor
  · rw [minimizedLoss]
    ring
  · rw [softmaxXent, one_hot_zip_sum (softmax lg) n lab h2 h1]

/-- Witness for C3 at a concrete batch: two samples, two classes,
label 1. -/
theorem total_loss_formula_witness :
    1 < 2 ∧ 1 < (softmax [(0 : ℝ), 1]).length ∧
    (minimizedLoss [0, 1] [[(1 : ℝ), 0], [0, 1]] 2 [[(1 : ℝ), 1]] [[0, 0]] (1 / 2) 50
        = supervisedLoss [0, 1] [[(1 : ℝ), 0], [0, 1]] 2
          + (1 / 2) * 50 * consistencyLoss [[(1 : ℝ), 1]] [[0, 0]]
      ∧ softmaxXent (oneHot 2 1) [(0 : ℝ), 1]
          = -Real.log ((softmax [(0 : ℝ), 1]).get ⟨1, by simp [softmax]⟩)) :=
  ⟨by norm_num, by simp [softmax],
   total_loss_formula [0, 1] [[(1 : ℝ), 0], [0, 1]] 2 [[(1 : ℝ), 1]] [[0, 0]] (1 / 2) 50
     1 [(0 : ℝ), 1] (by norm_num) (by simp [softmax])⟩

theorem tmean_nonneg (l : List ℝ) (h : ∀ x ∈ l, 0 ≤ x) : 0 ≤ tmean l :=
  div_nonneg (List.sum_nonneg h) (Nat.cast_nonneg _)

theorem tmean_pos (l : List ℝ) (h : ∀ x ∈ l, 0 ≤ x) (x : ℝ) (hx : x ∈ l) (hpos : 0 < x) :
    0 < tmean l := by
  refine div_pos (lt_of_lt_of_le hpos (List.single_le_sum h x hx)) ?_
  exact_mod_cast List.length_pos.mpr (List.ne_nil_of_mem hx)

/-- C5 counterexample: the consistency loss vanishes on the
non-identical logit tensors `[[1, 1]]` and `[[0, 0]]` (softmax is
invariant under a constant shift of a row), so it is not strictly
positive on every non-identical pair. -/
theorem consistency_loss_shift_zero :
    consistencyLoss [[(1 : ℝ), 1]] [[0, 0]] = 0
    ∧ ([[(1 : ℝ), 1]] : List (List ℝ)) ≠ [[0, 0]] := by
  constructor
  · have h1 : Real.exp 1 / (Real.exp 1 + Real.exp 1) = 1 / 2 := by
      rw [div_eq_div_iff (by positivity) (by norm_num)]
      ring
    simp [consistencyLoss, softmax, tmean, Real.exp_zero, h1]
    norm_num
  · intro h
    have : (1 : ℝ) = 0 := by
      have := congrArg (fun l => l.headD ([] : List ℝ)) h
      simpa using congrArg (fun l => l.headD (0 : ℝ)) this
    norm_num at this

theorem rowLoss_nonneg (a b : List ℝ) : 0 ≤ rowLoss a b := by
  refine tmean_nonneg _ ?_
  intro x hx
  obtain ⟨i, hi, rfl⟩ := List.mem_iff_getElem.mp hx
  rw [List.getElem_zipWith]
  positivity

theorem rowLoss_self (a : List ℝ) : rowLoss a a = 0 := by
  rw [rowLoss, List.zipWith_same]
  have h : (softmax a).map (fun p => (p - p) ^ 2) = (softmax a).map fun _ => 0 := by
    refine List.map_congr_left ?_
    intro p _
    ring
  simp [tmean, h]

theorem rowLoss_pos (a b : List ℝ) (hlen : a.length = b.length)
    (hne : softmax a ≠ softmax b) : 0 < rowLoss a b := by
  have hsl : (softmax a).length = (softmax b).length := by simp [softmax, hlen]
  have hex : ∃ (j : ℕ) (hja : j < (softmax a).length) (hjb : j < (softmax b).length),
      (softmax a).get ⟨j, hja⟩ ≠ (softmax b).get ⟨j, hjb⟩ := by
    by_contra hc
    push_neg at hc
    refine hne (List.ext_get hsl ?_)
    intro j hja hjb
    exact hc j hja hjb
  obtain ⟨j, hja, hjb, hd⟩ := hex
  have hjz : j < (List.zipWith (fun p q => (p - q) ^ 2) (softmax a) (softmax b)).length := by
    rw [List.length_zipWith]
    omega
  have hmem : ((softmax a).get ⟨j, hja⟩ - (softmax b).get ⟨j, hjb⟩) ^ 2
      ∈ List.zipWith (fun p q => (p - q) ^ 2) (softmax a) (softmax b) := by
    have hval : (List.zipWith (fun p q => (p - q) ^ 2) (softmax a) (softmax b)).get ⟨j, hjz⟩
        = ((softmax a).get ⟨j, hja⟩ - (softmax b).get ⟨j, hjb⟩) ^ 2 := by
      simp [List.get_eq_getElem, List.getElem_zipWith]
    rw [← hval]
    exact List.get_mem _ _ _
  refine tmean_pos _ ?_ _ hmem (pow_two_pos_of_ne_zero (sub_ne_zero.mpr hd))
  intro x hx
  obtain ⟨i, hi, rfl⟩ := List.mem_iff_getElem.mp hx
  rw [List.getElem_zipWith]
  positivity

/-- C5 (amended): the consistency loss is `0` whenever the teacher and
student logit tensors are identical, and is strictly positive whenever
some corresponding pair of rows (in equal-length batches, with
equal-length rows) has different softmax outputs. -/
theorem consistency_loss_zero_and_pos :
    (∀ t : List (List ℝ), consistencyLoss t t = 0)
    ∧ ∀ (t s : List (List ℝ)) (i : ℕ) (h1 : i < t.length) (h2 : i < s.length),
        t.length = s.length →
        (t.get ⟨i, h1⟩).length = (s.get ⟨i, h2⟩).length →
        softmax (t.get ⟨i, h1⟩) ≠ softmax (s.get ⟨i, h2⟩) →
        0 < consistencyLoss t s := by
  have hdef : ∀ t s : List (List ℝ), consistencyLoss t s = tmean (List.zipWith rowLoss t s) :=
    fun _ _ => rfl
  constructor
  · intro t
    rw [hdef, List.zipWith_same]
    have h : t.map (fun a => rowLoss a a) = t.map fun _ => 0 := by
      refine List.map_congr_left ?_
      intro a _
      exact rowLoss_self a
    simp [tmean, h]
  · intro t s i h1 h2 hlen hrow hne
    rw [hdef]
    have hiz : i < (List.zipWith rowLoss t s).length := by
      rw [List.length_zipWith]
      omega
    have hmem : rowLoss (t.get ⟨i, h1⟩) (s.get ⟨i, h2⟩) ∈ List.zipWith rowLoss t s := by
      have hval : (List.zipWith rowLoss t s).get ⟨i, hiz⟩
          = rowLoss (t.get ⟨i, h1⟩) (s.get ⟨i, h2⟩) := by
        simp [List.get_eq_getElem, List.getElem_zipWith]
      rw [← hval]
      exact List.get_mem _ _ _
    refine tmean_pos _ ?_ _ hmem (rowLoss_pos _ _ hrow hne)
    intro x hx
    obtain ⟨k, hk, rfl⟩ := List.mem_iff_getElem.mp hx
    rw [List.getElem_zipWith]
    exact rowLoss_nonneg _ _

/-- Witness for the amended C5: batches `[[0, 0]]` and `[[0, 1]]` have
different softmax rows, so the loss is strictly positive there. -/
theorem consistency_loss_zero_and_pos_witness :
    softmax [(0 : ℝ), 0] ≠ softmax [(0 : ℝ), 1]
    ∧ 0 < consistencyLoss [[(0 : ℝ), 0]] [[(0 : ℝ), 1]] := by
  have hexp : (1 : ℝ) < Real.exp 1 := lt_trans (by norm_num) Real.exp_one_gt_d9
  have hne : softmax [(0 : ℝ), 0] ≠ softmax [(0 : ℝ), 1] := by
    intro h
    simp only [softmax, List.map_cons, List.map_nil, List.sum_cons, List.sum_nil,
      Real.exp_zero, List.cons.injEq] at h
    obtain ⟨hhead, -⟩ := h
    rw [div_eq_div_iff (by norm_num) (by positivity)] at hhead
    linarith
  exact ⟨hne,
    consistency_loss_zero_and_pos.2 [[(0 : ℝ), 0]] [[(0 : ℝ), 1]] 0
      (by norm_num) (by norm_num) rfl (by norm_num) hne⟩

end RealMix
